import Mathlib

/-!
Shallow embedding of `src/api/index.py` (a Flask proxy that issues expiring
API keys stored in MongoDB, authorizes requests on the `/ai` route, forwards
prompts to an upstream completion endpoint, and meters usage), together with
theorems settling the frozen claims about it.

Modelling conventions:
- Timestamps (`datetime.datetime.utcnow()` values) are integers counting
  seconds; `datetime.timedelta(days=d)` is `d * 86400` seconds.
- The Mongo collection `keys_col` is a `List KeyDoc` in insertion order.
  `find_one` is `List.find?` (first match), `insert_one` appends,
  `update_one` rewrites the first matching document, `update_many` rewrites
  every matching document.  The unique index on `key` is carried as an
  explicit `keysUnique` hypothesis where a theorem needs it.
- `secrets.token_urlsafe(24)` and the clock are modelled as streams
  `gen : Nat -> String` and `clock : Nat -> Int` indexed by the attempt
  number, since `create_key` re-reads both on every recursive retry.
- The outbound HTTP call `call_ai` either raises (timeout, non-2xx status
  from `raise_for_status`, or a `KeyError` on a malformed body) or returns
  the pair (reply text, latency); it is passed to `ai_api` as an
  `Except Unit (String × Int)` outcome.  The third field of `AiOutcome`
  records whether the flow reached `call_ai` at all.
-/

/-- A document of the `AI_APIKEY` collection, as built by `create_key`. -/
structure KeyDoc where
  key : String
  name : String
  created_at : Int
  expires_at : Int
  active : Bool
  usage : Nat
deriving Repr, DecidableEq

/-- Python truthiness test `not x` for `request.args.get(...)`: the argument
is falsy when absent or when it is the empty string. -/
def isFalsy : Option String → Bool
  | none => true
  | some s => s.isEmpty

/-- Mongo `update_one(filter, update)`: rewrite the first document matching
the filter, leave everything else in place. -/
def updateFirst (p : KeyDoc → Bool) (f : KeyDoc → KeyDoc) : List KeyDoc → List KeyDoc
  | [] => []
  | d :: rest => if p d then f d :: rest else d :: updateFirst p f rest

/-- The update `\x7b"$set": \x7b"active": False\x7d\x7d`. -/
def setInactive (d : KeyDoc) : KeyDoc := { d with active := false }

/-- The update `\x7b"$inc": \x7b"usage": 1\x7d\x7d`. -/
def incUsage (d : KeyDoc) : KeyDoc := { d with usage := d.usage + 1 }

/-- The unique index `keys_col.create_index("key", unique=True)`: all stored
key strings are pairwise distinct. -/
def keysUnique : List KeyDoc → Bool
  | [] => true
  | d :: rest => rest.all (fun e => e.key != d.key) && keysUnique rest

/-- Sum of the `usage` fields of every document whose `key` equals `k`
(under the unique index there is at most one such document). -/
def totalUsage : List KeyDoc → String → Nat
  | [], _ => 0
  | d :: rest, k => (if d.key == k then d.usage else 0) + totalUsage rest k

/-- Responses the `/ai` route can produce.  `upstreamFailure` stands for the
exception a failed `call_ai` lets escape from the handler (Flask turns it
into a 5xx, not a JSON body). -/
inductive AiResponse where
  | missingParams
  | invalidKey
  | expiredKey
  | upstreamFailure
  | success (provider reply : String) (latency : Int)
deriving Repr, DecidableEq

/-- Result of one `/ai` request: the response, the collection afterwards,
and whether `call_ai` was invoked. -/
structure AiOutcome where
  resp : AiResponse
  store : List KeyDoc
  upstreamCalled : Bool
deriving Repr, DecidableEq

/-- The `/ai` route handler `ai_api` of `src/api/index.py`:
parameter check, `find_one(\x7b"key": key, "active": True\x7d)`, lazy expiry
(`expires_at < utcnow()` deactivates and rejects), then `call_ai` and the
usage increment on success. -/
def ai_api (s : List KeyDoc) (now : Int) (upstream : Except Unit (String × Int))
    (apikey prompt : Option String) : AiOutcome :=
  if isFalsy apikey || isFalsy prompt then
    ⟨AiResponse.missingParams, s, false⟩
  else
    match s.find? (fun d => d.key == apikey.getD "" && d.active) with
    | none => ⟨AiResponse.invalidKey, s, false⟩
    | some doc =>
      if doc.expires_at < now then
        ⟨AiResponse.expiredKey,
         updateFirst (fun d => d.key == apikey.getD "") setInactive s, false⟩
      else
        match upstream with
        | Except.error _ => ⟨AiResponse.upstreamFailure, s, true⟩
        | Except.ok (reply, latency) =>
          ⟨AiResponse.success "Alice AI" reply latency,
           updateFirst (fun d => d.key == apikey.getD "") incUsage s, true⟩

/-- A request is admitted by the authorization steps exactly when the flow
reaches the upstream call. -/
def aiAdmits (s : List KeyDoc) (now : Int) (upstream : Except Unit (String × Int))
    (apikey prompt : Option String) : Bool :=
  (ai_api s now upstream apikey prompt).upstreamCalled

/-- Predicate for the 200 branch of `ai_api`. -/
def isSuccess : AiResponse → Bool
  | AiResponse.success _ _ _ => true
  | _ => false

example :
    ai_api [⟨"K", "a", 0, 100, true, 3⟩] 50 (Except.ok ("hi", 2))
      (some "K") (some "p")
      = ⟨AiResponse.success "Alice AI" "hi" 2, [⟨"K", "a", 0, 100, true, 4⟩], true⟩ := by
  decide

example :
    ai_api [⟨"K", "a", 0, 100, true, 3⟩] 200 (Except.ok ("hi", 2))
      (some "K") (some "p")
      = ⟨AiResponse.expiredKey, [⟨"K", "a", 0, 100, false, 3⟩], false⟩ := by
  decide

/-- Worker for `create_key`.  The Python function is

    def create_key(name, days):
        now = datetime.datetime.utcnow()
        doc = \x7b ..., "created_at": now,
              "expires_at": now + datetime.timedelta(days=days),
              "active": True, "usage": 0 \x7d
        try: keys_col.insert_one(doc)
        except DuplicateKeyError: return create_key(name, days)
        return doc

`insert_one` raises `DuplicateKeyError` exactly when the generated token is
already a stored `key` (the unique index), whereupon the function recurses
with a fresh token and a fresh clock reading.  The recursion is unbounded in
the source; `fuel` counts recursion steps, so `none` means the call has not
returned within `fuel` attempts, and `(∀ fuel, ... = none)` means it never
returns.  `n` is the index of the current attempt into the token and clock
streams. -/
def create_key_aux (gen : Nat → String) (clock : Nat → Int) (s : List KeyDoc)
    (name : String) (days : Int) (n : Nat) : Nat → Option (KeyDoc × List KeyDoc)
  | 0 => none
  | fuel + 1 =>
    let now := clock n
    let doc : KeyDoc := ⟨gen n, name, now, now + days * 86400, true, 0⟩
    if s.any (fun d => d.key == gen n) then
      create_key_aux gen clock s name days (n + 1) fuel
    else
      some (doc, s ++ [doc])

/-- The `create_key(name, days)` entry point, starting at attempt 0. -/
def create_key (gen : Nat → String) (clock : Nat → Int) (s : List KeyDoc)
    (name : String) (days : Int) (fuel : Nat) : Option (KeyDoc × List KeyDoc) :=
  create_key_aux gen clock s name days 0 fuel

/-- The function `revoke_by_name`:

    keys_col.update_many(\x7b"name": name\x7d, \x7b"$set": \x7b"active": False\x7d\x7d).modified_count

Every document whose `name` matches gets `active := false`.  Mongo's
`modified_count` counts the documents an update actually changed: a matched
document whose `active` field is already `False` is matched but not
modified, so the returned count is the number of matching documents that
were still active. -/
def revoke_by_name (s : List KeyDoc) (name : String) : List KeyDoc × Nat :=
  (s.map (fun d => if d.name == name then setInactive d else d),
   (s.filter (fun d => d.name == name && d.active)).length)

example : revoke_by_name [⟨"K", "a", 0, 9, true, 0⟩, ⟨"L", "b", 0, 9, true, 0⟩] "a"
    = ([⟨"K", "a", 0, 9, false, 0⟩, ⟨"L", "b", 0, 9, true, 0⟩], 1) := by decide

example : create_key (fun _ => "K") (fun _ => 5) [] "nm" 2 1
    = some (⟨"K", "nm", 5, 172805, true, 0⟩, [⟨"K", "nm", 5, 172805, true, 0⟩]) := by
  decide

/-- An inbound Telegram message, reduced to the fields the handlers read. -/
structure TgMessage where
  fromUserId : Int
  chatId : Int
  text : String
deriving Repr, DecidableEq

/-- The function `is_admin(uid): return uid == ADMIN_ID`. -/
def is_admin (adminId uid : Int) : Bool := uid == adminId

/-- Observable effects of a bot handler. -/
inductive BotAction where
  | sendMessage (chatId : Int) (body : String)
deriving Repr, DecidableEq

/-- Trace of one handler run: the prompts sent to `call_ai`, the messages
sent back, and whether the handler raised an exception. -/
structure HandlerRun where
  upstreamCalls : List String
  actions : List BotAction
  raised : Bool
deriving Repr, DecidableEq

/-- The handler `chat_handler(m)`:

    reply, _ = call_ai(m.text)
    bot.send_message(m.chat.id, reply)

It runs for any sender (its registration filter checks only the text) and
lets a `call_ai` exception escape. -/
def chat_handler (up : String → Except Unit (String × Int)) (m : TgMessage) : HandlerRun :=
  match up m.text with
  | Except.error _ => ⟨[m.text], [], true⟩
  | Except.ok (reply, _) => ⟨[m.text], [BotAction.sendMessage m.chatId reply], false⟩

/-- Character-list version of a starts-with test, used so that concrete
routing facts evaluate by `decide`. -/
def charsStart : List Char → List Char → Bool
  | [], _ => true
  | _ :: _, [] => false
  | c :: cs, d :: ds => c == d && charsStart cs ds

/-- The filter of `chat_handler`: `m.text.startswith("/")`. -/
def startsSlash (t : String) : Bool :=
  match t.data with
  | [] => false
  | ch :: _ => ch == '/'

/-- Telebot routing test for `commands=["c"]`: the text begins with `/`
followed by the command name. -/
def matchesCommand (c t : String) : Bool :=
  match t.data with
  | [] => false
  | ch :: rest => ch == '/' && charsStart c.data rest

/-- The handlers registered on the bot, in registration order. -/
inductive HandlerId where
  | start | help | genkey | list | usage | rework | delkey | test | chat | noHandler
deriving Repr, DecidableEq

/-- Telebot dispatch: the first registered handler whose filter accepts the
message text runs.  The six admin commands, then the catch-all
`func=lambda m: not m.text.startswith("/")` of `chat_handler`. -/
def routeMessage (t : String) : HandlerId :=
  if matchesCommand "start" t then HandlerId.start
  else if matchesCommand "help" t then HandlerId.help
  else if matchesCommand "genkey" t then HandlerId.genkey
  else if matchesCommand "list" t then HandlerId.list
  else if matchesCommand "usage" t then HandlerId.usage
  else if matchesCommand "rework" t then HandlerId.rework
  else if matchesCommand "delkey" t then HandlerId.delkey
  else if matchesCommand "test" t then HandlerId.test
  else if !(startsSlash t) then HandlerId.chat
  else HandlerId.noHandler

/-- The admin command handlers `genkey_cmd`, `list_cmd`, `usage_cmd`,
`rework_cmd`, `delkey_cmd`, `test_cmd`.  Each begins with

    if not is_admin(m.from_user.id): return

so a non-admin sender gets no effect at all; the body behind the guard
(key creation, listing, and so on) is abstracted as `body h`, which is only
reachable for the admin sender. -/
def adminCommands : List HandlerId :=
  [HandlerId.genkey, HandlerId.list, HandlerId.usage,
   HandlerId.rework, HandlerId.delkey, HandlerId.test]

/-- Executing the handler `routeMessage` picks for a message.  `startText`
and `helpText` stand for the literal bodies of `start_cmd` and `help_cmd`
(sent to any sender), `body` for the guarded bodies of the six admin
handlers. -/
def dispatchMessage (adminId : Int) (up : String → Except Unit (String × Int))
    (startText helpText : String) (body : HandlerId → HandlerRun)
    (m : TgMessage) : HandlerRun :=
  match routeMessage m.text with
  | HandlerId.start => ⟨[], [BotAction.sendMessage m.chatId startText], false⟩
  | HandlerId.help => ⟨[], [BotAction.sendMessage m.chatId helpText], false⟩
  | HandlerId.chat => chat_handler up m
  | HandlerId.noHandler => ⟨[], [], false⟩
  | h => if is_admin adminId m.fromUserId then body h else ⟨[], [], false⟩

/-- The `/telegram` route:

    update = telebot.types.Update.de_json(request.get_data().decode("utf-8"))
    bot.process_new_updates([update])
    return "OK", 200

The bot is constructed as `telebot.TeleBot(BOT_TOKEN, threaded=False)` with
no exception handler, under which `process_new_updates` runs the matched
handler synchronously and re-raises anything it throws; the literal
`return "OK", 200` executes only if that call returns normally, otherwise
the exception escapes the route (Flask answers with a 500). -/
def telegram_webhook (adminId : Int) (up : String → Except Unit (String × Int))
    (startText helpText : String) (body : HandlerId → HandlerRun)
    (m : TgMessage) : Except Unit (String × Nat) :=
  let run := dispatchMessage adminId up startText helpText body m
  if run.raised then Except.error () else Except.ok ("OK", 200)

example : routeMessage "hello there" = HandlerId.chat := by decide

example : routeMessage "/genkey alice 30" = HandlerId.genkey := by decide

example :
    chat_handler (fun t => Except.ok (t ++ "!", 1)) ⟨7, 9, "hi"⟩
      = ⟨["hi"], [BotAction.sendMessage 9 "hi!"], false⟩ := by decide

/-! Helper lemmas about the store operations. -/

theorem keysUnique_cons (d : KeyDoc) (rest : List KeyDoc) :
    keysUnique (d :: rest) = (rest.all (fun e => e.key != d.key) && keysUnique rest) := rfl

theorem totalUsage_updateFirst_setInactive (s : List KeyDoc) (k q : String) :
    totalUsage (updateFirst (fun d => d.key == q) setInactive s) k = totalUsage s k := by
  induction s with
  | nil => rfl
  | cons d rest ih =>
    by_cases h : (d.key == q) = true
    · simp [updateFirst, h, totalUsage, setInactive]
    · simp [updateFirst, h, totalUsage, ih]

theorem totalUsage_updateFirst_incUsage (s : List KeyDoc) (k : String)
    (h : ∃ d ∈ s, (d.key == k) = true) :
    totalUsage (updateFirst (fun d => d.key == k) incUsage s) k = totalUsage s k + 1 := by
  induction s with
  | nil => simp at h
  | cons d rest ih =>
    by_cases hd : (d.key == k) = true
    · simp [updateFirst, hd, totalUsage, incUsage]
      omega
    · have h' : ∃ e ∈ rest, (e.key == k) = true := by
        obtain ⟨e, he, hek⟩ := h
        cases he with
        | head => exact absurd hek hd
        | tail _ hmem => exact ⟨e, hmem, hek⟩
      simp [updateFirst, hd, totalUsage, ih h']

theorem find?_active_none_of_no_key (s : List KeyDoc) (k : String)
    (h : ∀ e ∈ s, (e.key == k) = false) :
    s.find? (fun d => d.key == k && d.active) = none := by
  rw [List.find?_eq_none]
  intro x hx
  simp [h x hx]

theorem active_eq_false_after_setInactive (s : List KeyDoc) (k : String)
    (hu : keysUnique s = true) :
    ∀ e ∈ updateFirst (fun d => d.key == k) setInactive s, e.key = k → e.active = false := by
  induction s with
  | nil => intro e he; simp [updateFirst] at he
  | cons d rest ih =>
    rw [keysUnique_cons, Bool.and_eq_true] at hu
    obtain ⟨hall, hurest⟩ := hu
    intro e he hek
    by_cases hd : (d.key == k) = true
    · rw [updateFirst, if_pos hd] at he
      cases he with
      | head => simp [setInactive]
      | tail _ hmem =>
        have := List.all_eq_true.mp hall e hmem
        rw [bne_iff_ne] at this
        exact absurd (hek.trans (beq_iff_eq.mp hd).symm) this
    · rw [updateFirst, if_neg hd] at he
      cases he with
      | head => exact absurd (beq_iff_eq.mpr hek) hd
      | tail _ hmem => exact ih hurest e hmem hek

theorem find?_active_updateFirst_setInactive (s : List KeyDoc) (k : String)
    (hu : keysUnique s = true) :
    (updateFirst (fun d => d.key == k) setInactive s).find?
      (fun d => d.key == k && d.active) = none := by
  rw [List.find?_eq_none]
  intro x hx
  by_cases hxk : (x.key == k) = true
  · have := active_eq_false_after_setInactive s k hu x hx (beq_iff_eq.mp hxk)
    simp [this]
  · simp [hxk]

theorem find?_append_none (p : KeyDoc → Bool) (s t : List KeyDoc)
    (h : s.find? p = none) : (s ++ t).find? p = t.find? p := by
  induction s with
  | nil => rfl
  | cons d rest ih =>
    rw [List.find?_cons] at h
    cases hp : p d with
    | true => rw [hp] at h; exact absurd h (by simp)
    | false =>
      rw [hp] at h
      rw [List.cons_append, List.find?_cons, hp]
      exact ih h

theorem keysUnique_append_singleton (s : List KeyDoc) (d : KeyDoc)
    (hu : keysUnique (s ++ [d]) = true) :
    ∀ e ∈ s, (e.key == d.key) = false := by
  induction s with
  | nil => intro e he; simp at he
  | cons x rest ih =>
    rw [List.cons_append, keysUnique_cons, Bool.and_eq_true] at hu
    obtain ⟨hall, hurest⟩ := hu
    intro e he
    cases he with
    | head =>
      have := List.all_eq_true.mp hall d (by simp)
      rw [bne_iff_ne] at this
      exact beq_eq_false_iff_ne.mpr (fun hxe => this hxe.symm)
    | tail _ hmem => exact ih hurest e hmem

theorem keysUnique_eq_of_mem (s : List KeyDoc) (hu : keysUnique s = true) :
    ∀ a ∈ s, ∀ b ∈ s, a.key = b.key → a = b := by
  induction s with
  | nil => intro a ha; simp at ha
  | cons x rest ih =>
    rw [keysUnique_cons, Bool.and_eq_true] at hu
    obtain ⟨hall, hurest⟩ := hu
    intro a ha b hb hab
    cases ha with
    | head =>
      cases hb with
      | head => rfl
      | tail _ hbm =>
        have := List.all_eq_true.mp hall b hbm
        rw [bne_iff_ne] at this
        exact absurd hab.symm this
    | tail _ ham =>
      cases hb with
      | head =>
        have := List.all_eq_true.mp hall a ham
        rw [bne_iff_ne] at this
        exact absurd hab this
      | tail _ hbm => exact ih hurest a ham b hbm hab

theorem find?_active_after_revoke (s : List KeyDoc) (nm k : String)
    (hu : keysUnique s = true) (hex : ∃ d ∈ s, d.key = k ∧ d.name = nm) :
    (revoke_by_name s nm).1.find? (fun x => x.key == k && x.active) = none := by
  obtain ⟨d, hd, hdk, hdn⟩ := hex
  rw [List.find?_eq_none]
  intro x hx
  obtain ⟨y, hy, rfl⟩ := List.mem_map.mp hx
  by_cases hyn : (y.name == nm) = true
  · simp [hyn, setInactive]
  · rw [if_neg hyn]
    simp only [Bool.and_eq_true, beq_iff_eq, not_and]
    intro hyk _
    have hyd : y = d := keysUnique_eq_of_mem s hu y hy d hd (hyk.trans hdk.symm)
    exact absurd (beq_iff_eq.mpr (hyd ▸ hdn)) hyn

/-! Claim theorems. -/

/-- C1: on every `/ai` request presenting key `k`, the stored usage of `k`
grows by exactly 1 when the response is the success response, and is
unchanged on every other outcome (missing parameters, invalid key, expired
key, or an upstream failure). -/
theorem Claim1_usage_metered_iff_success (s : List KeyDoc) (now : Int)
    (up : Except Unit (String × Int)) (k : String) (prompt : Option String) :
    totalUsage (ai_api s now up (some k) prompt).store k
      = totalUsage s k
        + (if isSuccess (ai_api s now up (some k) prompt).resp then 1 else 0) := by
  unfold ai_api
  by_cases h0 : (isFalsy (some k) || isFalsy prompt) = true
  · simp [h0, isSuccess]
  · rw [Bool.not_eq_true] at h0
    simp only [h0, Bool.false_eq_true, if_false, Option.getD_some]
    cases hf : s.find? (fun d => d.key == k && d.active) with
    | none => simp [isSuccess]
    | some doc =>
      by_cases he : doc.expires_at < now
      · simp [he, isSuccess, totalUsage_updateFirst_setInactive]
      · cases up with
        | error e => simp [he, isSuccess]
        | ok pr =>
          obtain ⟨r, l⟩ := pr
          have hmem : ∃ d ∈ s, (d.key == k) = true := by
            refine ⟨doc, List.mem_of_find?_eq_some hf, ?_⟩
            have := List.find?_some hf
            simp only [Bool.and_eq_true] at this
            exact this.1
          simp [he, isSuccess, totalUsage_updateFirst_incUsage s k hmem]

/-- C2 corrected: for a stored record `d` presented at time `now`, the
authorization admits the request iff `d.active` and `now ≤ d.expires_at`.
The source rejects only when `expires_at < now` is strict, so the boundary
instant `now = expires_at` is admitted, not rejected. -/
theorem Claim2_amended_admit_iff (d : KeyDoc) (now : Int)
    (up : Except Unit (String × Int)) (p : String)
    (hk : d.key.isEmpty = false) (hp : p.isEmpty = false) :
    aiAdmits [d] now up (some d.key) (some p)
      = (d.active && decide (now ≤ d.expires_at)) := by
  unfold aiAdmits ai_api
  simp only [isFalsy, hk, hp, Bool.or_self, Bool.false_eq_true, if_false,
    Option.getD_some, List.find?_cons, beq_self_eq_true, Bool.true_and]
  cases ha : d.active with
  | false => simp
  | true =>
    simp only [List.find?]
    by_cases he : d.expires_at < now
    · have : decide (now ≤ d.expires_at) = false := by
        simp only [decide_eq_false_iff_not]
        omega
      simp [he, this]
    · have : decide (now ≤ d.expires_at) = true := by
        simp only [decide_eq_true_eq]
        omega
      cases up with
      | error e => simp [he, this]
      | ok pr => obtain ⟨r, l⟩ := pr; simp [he, this]

/-- C2 counterexample: a record with `active = true` presented at exactly
`now = expires_at` is admitted (the call even succeeds and is metered),
whereas the claim says it is rejected. -/
theorem Claim2_counterexample :
    ai_api [⟨"K", "a", 0, 100, true, 0⟩] 100 (Except.ok ("r", 2)) (some "K") (some "p")
      = ⟨AiResponse.success "Alice AI" "r" 2, [⟨"K", "a", 0, 100, true, 1⟩], true⟩ := by
  decide

/-- Witness for C2: a record with 50 time units of validity left is
admitted. -/
theorem Claim2_amended_admit_iff_witness :
    aiAdmits [⟨"K", "a", 0, 100, true, 0⟩] 50 (Except.ok ("r", 2)) (some "K") (some "p")
      = (true && decide ((50 : Int) ≤ 100)) :=
  Claim2_amended_admit_iff ⟨"K", "a", 0, 100, true, 0⟩ 50 (Except.ok ("r", 2)) "p"
    (by decide) (by decide)

/-- C7: an absent or empty `apikey` or `prompt` parameter yields the
missing-parameters response, leaves the store untouched, and never reaches
the upstream client. -/
theorem Claim7_missing_params (s : List KeyDoc) (now : Int)
    (up : Except Unit (String × Int)) (apikey prompt : Option String)
    (h : isFalsy apikey = true ∨ isFalsy prompt = true) :
    ai_api s now up apikey prompt = ⟨AiResponse.missingParams, s, false⟩ := by
  unfold ai_api
  rcases h with h | h <;> simp [h]

/-- Witness for C7: a request with a key but no prompt is refused without
any store or upstream effect. -/
theorem Claim7_missing_params_witness :
    ai_api [⟨"K", "a", 0, 100, true, 0⟩] 5 (Except.ok ("r", 2)) (some "K") none
      = ⟨AiResponse.missingParams, [⟨"K", "a", 0, 100, true, 0⟩], false⟩ :=
  Claim7_missing_params [⟨"K", "a", 0, 100, true, 0⟩] 5 (Except.ok ("r", 2))
    (some "K") none (Or.inr rfl)

/-- C3: presenting a still-active key after its expiry instant fails with
the expired-key error, persistently deactivates the record as a side effect
of the failed call, and a second attempt with the same key then fails with
the invalid-key error because the active-filtered lookup no longer finds
it. -/
theorem Claim3_lazy_expiry (s : List KeyDoc) (d : KeyDoc) (k p : String)
    (now now2 : Int) (up up2 : Except Unit (String × Int))
    (hu : keysUnique s = true)
    (hf : s.find? (fun x => x.key == k && x.active) = some d)
    (hex : d.expires_at < now)
    (hk : k.isEmpty = false) (hp : p.isEmpty = false) :
    (ai_api s now up (some k) (some p)).resp = AiResponse.expiredKey ∧
    (∀ e ∈ (ai_api s now up (some k) (some p)).store, e.key = k → e.active = false) ∧
    (ai_api (ai_api s now up (some k) (some p)).store now2 up2 (some k) (some p)).resp
      = AiResponse.invalidKey := by
  have hmain : ai_api s now up (some k) (some p)
      = ⟨AiResponse.expiredKey, updateFirst (fun x => x.key == k) setInactive s, false⟩ := by
    unfold ai_api
    simp [isFalsy, hk, hp, hf, hex]
  refine ⟨by rw [hmain], ?_, ?_⟩
  · rw [hmain]
    exact active_eq_false_after_setInactive s k hu
  · rw [hmain]
    unfold ai_api
    simp [isFalsy, hk, hp, find?_active_updateFirst_setInactive s k hu]

/-- Witness for C3: a key one tick past expiry is rejected as expired and
then rejected as invalid. -/
theorem Claim3_lazy_expiry_witness :
    ((ai_api [⟨"K", "a", 0, 10, true, 3⟩] 11 (Except.ok ("r", 1))
        (some "K") (some "p")).resp = AiResponse.expiredKey) ∧
    (ai_api (ai_api [⟨"K", "a", 0, 10, true, 3⟩] 11 (Except.ok ("r", 1))
          (some "K") (some "p")).store
        12 (Except.ok ("r", 1)) (some "K") (some "p")).resp = AiResponse.invalidKey := by
  have h := Claim3_lazy_expiry [⟨"K", "a", 0, 10, true, 3⟩] ⟨"K", "a", 0, 10, true, 3⟩
    "K" "p" 11 12 (Except.ok ("r", 1)) (Except.ok ("r", 1))
    (by decide) (by decide) (by decide) rfl rfl
  exact ⟨h.1, h.2.2⟩

/-- C5 corrected: revoking a name deactivates every record carrying that
name, leaves every other record untouched, and any revoked key is then
rejected as invalid; but the returned count is Mongo's modified count, the
number of records with that name that were still active, not the number of
records with that name. -/
theorem Claim5_amended_revoke (s : List KeyDoc) (nm : String)
    (hu : keysUnique s = true) :
    (∀ e ∈ (revoke_by_name s nm).1, e.name = nm → e.active = false) ∧
    (∀ d ∈ s, d.name ≠ nm → d ∈ (revoke_by_name s nm).1) ∧
    ((revoke_by_name s nm).2
      = (s.filter (fun d => d.name == nm && d.active)).length) ∧
    (∀ d ∈ s, d.name = nm →
      ∀ (now : Int) (up : Except Unit (String × Int)) (p : String),
        d.key.isEmpty = false → p.isEmpty = false →
        (ai_api (revoke_by_name s nm).1 now up (some d.key) (some p)).resp
          = AiResponse.invalidKey) := by
  refine ⟨?_, ?_, rfl, ?_⟩
  · intro e he hen
    obtain ⟨y, hy, rfl⟩ := List.mem_map.mp he
    by_cases hyn : (y.name == nm) = true
    · simp [hyn, setInactive]
    · rw [if_neg hyn] at hen ⊢
      exact absurd (beq_iff_eq.mpr hen) hyn
  · intro d hd hdn
    have hfix : (fun y => if y.name == nm then setInactive y else y) d = d := by
      simp only
      rw [if_neg (fun hc => hdn (beq_iff_eq.mp hc))]
    have := List.mem_map_of_mem (fun y => if y.name == nm then setInactive y else y) hd
    rw [hfix] at this
    exact this
  · intro d hd hdn now up p hk hp
    unfold ai_api
    simp [isFalsy, hk, hp, find?_active_after_revoke s nm d.key hu ⟨d, hd, rfl, hdn⟩]

/-- C5 counterexample: with a single record whose name matches but whose
active flag is already false, `revoke_by_name` returns 0 while the number
of records in the store with that name is 1. -/
theorem Claim5_counterexample :
    (revoke_by_name [⟨"K", "a", 0, 100, false, 7⟩] "a").2 = 0 ∧
    (([⟨"K", "a", 0, 100, false, 7⟩] : List KeyDoc).filter
      (fun d => d.name == "a")).length = 1 := by
  decide

/-- Witness for C5: a revoked key is afterwards rejected as invalid. -/
theorem Claim5_amended_revoke_witness :
    (ai_api (revoke_by_name [⟨"K", "a", 0, 100, true, 0⟩] "a").1 0 (Except.ok ("r", 1))
        (some "K") (some "p")).resp = AiResponse.invalidKey := by
  have h := Claim5_amended_revoke [⟨"K", "a", 0, 100, true, 0⟩] "a" (by decide)
  exact h.2.2.2 ⟨"K", "a", 0, 100, true, 0⟩ (by decide) rfl 0 (Except.ok ("r", 1)) "p"
    rfl rfl

theorem create_key_aux_spec (gen : Nat → String) (now : Int) (s : List KeyDoc)
    (name : String) (days : Int) :
    ∀ (fuel n : Nat) (doc : KeyDoc) (s' : List KeyDoc),
      create_key_aux gen (fun _ => now) s name days n fuel = some (doc, s') →
      doc.name = name ∧ doc.created_at = now ∧
      doc.expires_at = now + days * 86400 ∧
      doc.active = true ∧ doc.usage = 0 ∧ s' = s ++ [doc] := by
  intro fuel
  induction fuel with
  | zero => intro n doc s' h; exact absurd h (by simp [create_key_aux])
  | succ f ih =>
    intro n doc s' h
    rw [create_key_aux] at h
    by_cases hc : s.any (fun d => d.key == gen n) = true
    · rw [if_pos hc] at h
      exact ih (n + 1) doc s' h
    · rw [if_neg hc] at h
      simp only [Option.some.injEq, Prod.mk.injEq] at h
      obtain ⟨hdoc, hs'⟩ := h
      subst hdoc
      subst hs'
      exact ⟨rfl, rfl, rfl, rfl, rfl, rfl⟩

/-- C6: whenever `create_key(name, days)` returns, the returned record has
`created_at = now`, `expires_at = created_at` plus `days` days, is active
with zero usage, and has been persisted in the store. -/
theorem Claim6_create_key_shape (gen : Nat → String) (now : Int) (s : List KeyDoc)
    (name : String) (days : Int) (fuel : Nat) (doc : KeyDoc) (s' : List KeyDoc)
    (h : create_key gen (fun _ => now) s name days fuel = some (doc, s')) :
    doc.name = name ∧ doc.created_at = now ∧
    doc.expires_at = doc.created_at + days * 86400 ∧
    doc.active = true ∧ doc.usage = 0 ∧ doc ∈ s' := by
  obtain ⟨h1, h2, h3, h4, h5, h6⟩ := create_key_aux_spec gen now s name days fuel 0 doc s' h
  refine ⟨h1, h2, by rw [h2, h3], h4, h5, ?_⟩
  rw [h6]
  exact List.mem_append_right s (List.mem_singleton.mpr rfl)

/-- Witness for C6: creating a 30-day key in an empty store. -/
theorem Claim6_create_key_shape_witness :
    (⟨"K", "nm", 0, 2592000, true, 0⟩ : KeyDoc).name = "nm" ∧
    (⟨"K", "nm", 0, 2592000, true, 0⟩ : KeyDoc).created_at = 0 ∧
    (⟨"K", "nm", 0, 2592000, true, 0⟩ : KeyDoc).expires_at
      = (⟨"K", "nm", 0, 2592000, true, 0⟩ : KeyDoc).created_at + 30 * 86400 ∧
    (⟨"K", "nm", 0, 2592000, true, 0⟩ : KeyDoc).active = true ∧
    (⟨"K", "nm", 0, 2592000, true, 0⟩ : KeyDoc).usage = 0 ∧
    (⟨"K", "nm", 0, 2592000, true, 0⟩ : KeyDoc) ∈ [(⟨"K", "nm", 0, 2592000, true, 0⟩ : KeyDoc)] :=
  Claim6_create_key_shape (fun _ => "K") 0 [] "nm" 30 1
    ⟨"K", "nm", 0, 2592000, true, 0⟩ [⟨"K", "nm", 0, 2592000, true, 0⟩] (by decide)

/-- Characterization used for C4: the retry recursion of `create_key` has
not returned within `fuel` attempts exactly when every one of the first
`fuel` generated tokens collides with a stored key. -/
theorem create_key_aux_none_iff (gen : Nat → String) (clock : Nat → Int)
    (s : List KeyDoc) (name : String) (days : Int) :
    ∀ (fuel n : Nat),
      create_key_aux gen clock s name days n fuel = none
        ↔ ∀ m, m < fuel → s.any (fun d => d.key == gen (n + m)) = true := by
  intro fuel
  induction fuel with
  | zero => intro n; simp [create_key_aux]
  | succ f ih =>
    intro n
    rw [create_key_aux]
    by_cases hc : s.any (fun d => d.key == gen n) = true
    · rw [if_pos hc, ih (n + 1)]
      constructor
      · intro h m hm
        cases m with
        | zero => simpa using hc
        | succ m' =>
          have := h m' (by omega)
          have harg : n + 1 + m' = n + (m' + 1) := by omega
          rwa [harg] at this
      · intro h m hm
        have := h (m + 1) (by omega)
        have harg : n + (m + 1) = n + 1 + m := by omega
        rwa [harg] at this
    · rw [if_neg hc]
      constructor
      · intro h; exact absurd h (by simp)
      · intro h
        have := h 0 (Nat.succ_pos f)
        rw [Nat.add_zero] at this
        exact absurd this hc

theorem create_key_stuck_on_collision :
    ∀ (fuel n : Nat),
      create_key_aux (fun _ => "K") (fun _ => 0)
        [⟨"K", "a", 0, 86400, true, 0⟩] "b" 7 n fuel = none := by
  intro fuel
  induction fuel with
  | zero => intro n; rfl
  | succ f ih =>
    intro n
    rw [create_key_aux]
    rw [if_pos (by decide)]
    exact ih (n + 1)

/-- C4 counterexample: with a store whose only key collides with every
token the generator produces, `create_key` has not returned after any
number of attempts whatsoever; there is no bound of 5 (or any other fixed
bound) after which a terminal failure is reported. -/
theorem Claim4_counterexample :
    (fun fuel => create_key (fun _ => "K") (fun _ => 0)
        [⟨"K", "a", 0, 86400, true, 0⟩] "b" 7 fuel)
      = (fun _ => none) := by
  funext fuel
  exact create_key_stuck_on_collision fuel 0

/-- C4 corrected: `create_key` retries on a duplicate-key collision by
regenerating the token, and no duplicate-key failure is ever surfaced (the
result type has no such outcome), but the retry is an unbounded recursion:
the call returns within `fuel` attempts iff one of the first `fuel`
generated tokens is fresh, so if every generated token collides it never
terminates. -/
theorem Claim4_amended_unbounded_retry (gen : Nat → String) (clock : Nat → Int)
    (s : List KeyDoc) (name : String) (days : Int) (fuel : Nat) :
    create_key gen clock s name days fuel = none
      ↔ ∀ m, m < fuel → s.any (fun d => d.key == gen m) = true := by
  rw [create_key, create_key_aux_none_iff gen clock s name days fuel 0]
  constructor
  · intro h m hm
    have := h m hm
    rwa [Nat.zero_add] at this
  · intro h m hm
    have := h m hm
    rwa [Nat.zero_add]

/-- Witness for C4: with one generated token colliding and no fresh token
among the first 3 attempts, `create_key` is still running after 3
attempts. -/
theorem Claim4_amended_unbounded_retry_witness :
    create_key (fun _ => "K") (fun _ => 0)
      [⟨"K", "a", 0, 86400, true, 0⟩] "b" 7 3 = none :=
  (Claim4_amended_unbounded_retry (fun _ => "K") (fun _ => 0)
    [⟨"K", "a", 0, 86400, true, 0⟩] "b" 7 3).mpr (by decide)

theorem matchesCommand_eq_false_of_no_slash (c t : String)
    (h : startsSlash t = false) : matchesCommand c t = false := by
  unfold startsSlash at h
  unfold matchesCommand
  cases ht : t.data with
  | nil => rfl
  | cons ch rest =>
    rw [ht] at h
    simp only at h
    simp [h]

theorem routeMessage_chat (t : String) (h : startsSlash t = false) :
    routeMessage t = HandlerId.chat := by
  unfold routeMessage
  rw [matchesCommand_eq_false_of_no_slash "start" t h,
      matchesCommand_eq_false_of_no_slash "help" t h,
      matchesCommand_eq_false_of_no_slash "genkey" t h,
      matchesCommand_eq_false_of_no_slash "list" t h,
      matchesCommand_eq_false_of_no_slash "usage" t h,
      matchesCommand_eq_false_of_no_slash "rework" t h,
      matchesCommand_eq_false_of_no_slash "delkey" t h,
      matchesCommand_eq_false_of_no_slash "test" t h, h]
  simp

/-- C9: a non-command message (text not starting with a slash) from any
sender, admin or not, is routed to `chat_handler`, which calls the upstream
completion endpoint with exactly the sender's text and, when the call
succeeds, replies to the chat; there is no admin check on this path, while
every admin command handler produces no effect at all for a non-admin
sender. -/
theorem Claim9_chat_no_admin_check (adminId : Int)
    (up : String → Except Unit (String × Int)) (startText helpText : String)
    (body : HandlerId → HandlerRun) (m : TgMessage)
    (hs : startsSlash m.text = false) :
    (dispatchMessage adminId up startText helpText body m = chat_handler up m) ∧
    ((dispatchMessage adminId up startText helpText body m).upstreamCalls = [m.text]) ∧
    (∀ r l, up m.text = Except.ok (r, l) →
      (dispatchMessage adminId up startText helpText body m).actions
        = [BotAction.sendMessage m.chatId r]) ∧
    (∀ m' : TgMessage, routeMessage m'.text ∈ adminCommands →
      is_admin adminId m'.fromUserId = false →
      dispatchMessage adminId up startText helpText body m' = ⟨[], [], false⟩) := by
  have hroute : routeMessage m.text = HandlerId.chat := routeMessage_chat m.text hs
  have hdisp : dispatchMessage adminId up startText helpText body m
      = chat_handler up m := by
    unfold dispatchMessage
    rw [hroute]
  refine ⟨hdisp, ?_, ?_, ?_⟩
  · rw [hdisp]
    unfold chat_handler
    cases up m.text with
    | error e => rfl
    | ok pr => obtain ⟨r, l⟩ := pr; rfl
  · intro r l hok
    rw [hdisp]
    unfold chat_handler
    rw [hok]
  · intro m' hmem hadm
    unfold dispatchMessage
    cases hr : routeMessage m'.text with
    | start => rw [hr] at hmem; simp [adminCommands] at hmem
    | help => rw [hr] at hmem; simp [adminCommands] at hmem
    | chat => rw [hr] at hmem; simp [adminCommands] at hmem
    | noHandler => rfl
    | genkey => simp [hadm]
    | list => simp [hadm]
    | usage => simp [hadm]
    | rework => simp [hadm]
    | delkey => simp [hadm]
    | test => simp [hadm]

/-- Witness for C9: the plain message "hello" from a non-admin sender is
relayed upstream, and a non-admin "/genkey" command has no effect. -/
theorem Claim9_chat_no_admin_check_witness :
    (dispatchMessage 1 (fun t => Except.ok (t, 0)) "s" "h"
        (fun _ => ⟨["x"], [BotAction.sendMessage 0 "y"], true⟩)
        ⟨2, 3, "hello"⟩).upstreamCalls = ["hello"] ∧
    dispatchMessage 1 (fun t => Except.ok (t, 0)) "s" "h"
        (fun _ => ⟨["x"], [BotAction.sendMessage 0 "y"], true⟩)
        ⟨2, 3, "/genkey a 30"⟩ = ⟨[], [], false⟩ := by
  have h := Claim9_chat_no_admin_check 1 (fun t => Except.ok (t, 0)) "s" "h"
    (fun _ => ⟨["x"], [BotAction.sendMessage 0 "y"], true⟩) ⟨2, 3, "hello"⟩ (by decide)
  exact ⟨h.2.1, h.2.2.2 ⟨2, 3, "/genkey a 30"⟩ (by decide) (by decide)⟩

/-- C8 corrected: the `/telegram` route returns 200 OK exactly when the
dispatch of the update returns normally; when the matched handler raises
(the bot is built with `threaded=False` and no exception handler, so the
exception escapes `process_new_updates`), the route does not return
200 OK. -/
theorem Claim8_amended_webhook (adminId : Int)
    (up : String → Except Unit (String × Int)) (startText helpText : String)
    (body : HandlerId → HandlerRun) (m : TgMessage) :
    telegram_webhook adminId up startText helpText body m = Except.ok ("OK", 200)
      ↔ (dispatchMessage adminId up startText helpText body m).raised = false := by
  unfold telegram_webhook
  cases hr : (dispatchMessage adminId up startText helpText body m).raised <;> simp [hr]

/-- Witness for C8: a chat message whose upstream call succeeds yields the
200 OK response. -/
theorem Claim8_amended_webhook_witness :
    telegram_webhook 1 (fun t => Except.ok (t, 0)) "s" "h" (fun _ => ⟨[], [], false⟩)
        ⟨2, 3, "hello"⟩ = Except.ok ("OK", 200) :=
  (Claim8_amended_webhook 1 (fun t => Except.ok (t, 0)) "s" "h"
    (fun _ => ⟨[], [], false⟩) ⟨2, 3, "hello"⟩).mpr (by decide)

/-- C8 counterexample: a plain chat message whose upstream call fails makes
`chat_handler` raise, and the webhook does not return 200 OK, contradicting
the claim that the outcome of the downstream handler cannot matter. -/
theorem Claim8_counterexample :
    telegram_webhook 1 (fun _ => Except.error ()) "s" "h" (fun _ => ⟨[], [], false⟩)
        ⟨2, 3, "hello"⟩ ≠ Except.ok ("OK", 200) := by
  intro hcontra
  have h1 : telegram_webhook 1 (fun _ => Except.error ()) "s" "h"
      (fun _ => ⟨[], [], false⟩) ⟨2, 3, "hello"⟩ = Except.error () := rfl
  rw [h1] at hcontra
  exact Except.noConfusion hcontra

/-- C10 corrected: `create_key` accepts a non-positive lifetime without
validation and persists an active record with `expires_at ≤ created_at`;
any authorization attempt at a time strictly after `created_at` takes the
expired branch and deactivates the record.  However the record is not
literally "never authorizable": with `days = 0` a request at exactly
`now = created_at` is admitted, since the code rejects only when
`expires_at < now` strictly. -/
theorem Claim10_amended_nonpositive_days (gen : Nat → String) (now : Int)
    (s : List KeyDoc) (name : String) (days : Int) (fuel : Nat)
    (doc : KeyDoc) (s' : List KeyDoc) (now2 : Int)
    (up : Except Unit (String × Int)) (p : String)
    (hdays : days ≤ 0)
    (h : create_key gen (fun _ => now) s name days fuel = some (doc, s'))
    (hu : keysUnique s' = true)
    (hk : doc.key.isEmpty = false) (hp : p.isEmpty = false)
    (ht : doc.created_at < now2) :
    doc.active = true ∧ doc.expires_at ≤ doc.created_at ∧
    (ai_api s' now2 up (some doc.key) (some p)).resp = AiResponse.expiredKey ∧
    (∀ e ∈ (ai_api s' now2 up (some doc.key) (some p)).store,
      e.key = doc.key → e.active = false) := by
  obtain ⟨h1, h2, h3, h4, h5, h6⟩ := create_key_aux_spec gen now s name days fuel 0 doc s' h
  subst h6
  have hle : doc.expires_at ≤ doc.created_at := by
    rw [h2, h3]
    omega
  have hne : ∀ e ∈ s, (e.key == doc.key) = false :=
    keysUnique_append_singleton s doc hu
  have hfindS : s.find? (fun x => x.key == doc.key && x.active) = none := by
    rw [List.find?_eq_none]
    intro x hx
    simp [hne x hx]
  have hfind : (s ++ [doc]).find? (fun x => x.key == doc.key && x.active) = some doc := by
    rw [find?_append_none _ s [doc] hfindS]
    simp [List.find?, h4]
  have hexp : doc.expires_at < now2 := by omega
  have hmain : ai_api (s ++ [doc]) now2 up (some doc.key) (some p)
      = ⟨AiResponse.expiredKey,
         updateFirst (fun x => x.key == doc.key) setInactive (s ++ [doc]), false⟩ := by
    unfold ai_api
    simp [isFalsy, hk, hp, hfind, hexp]
  refine ⟨h4, hle, by rw [hmain], ?_⟩
  rw [hmain]
  exact active_eq_false_after_setInactive (s ++ [doc]) doc.key hu

/-- Witness for C10: a key created with `days = -1` is active yet already
expired, and an authorization attempt 5 ticks later is rejected as expired
and deactivates it. -/
theorem Claim10_amended_nonpositive_days_witness :
    (⟨"K", "a", 0, -86400, true, 0⟩ : KeyDoc).active = true ∧
    (⟨"K", "a", 0, -86400, true, 0⟩ : KeyDoc).expires_at
      ≤ (⟨"K", "a", 0, -86400, true, 0⟩ : KeyDoc).created_at ∧
    (ai_api [⟨"K", "a", 0, -86400, true, 0⟩] 5 (Except.ok ("r", 1))
        (some "K") (some "p")).resp = AiResponse.expiredKey ∧
    (∀ e ∈ (ai_api [⟨"K", "a", 0, -86400, true, 0⟩] 5 (Except.ok ("r", 1))
        (some "K") (some "p")).store, e.key = "K" → e.active = false) :=
  Claim10_amended_nonpositive_days (fun _ => "K") 0 [] "a" (-1) 1
    ⟨"K", "a", 0, -86400, true, 0⟩ [⟨"K", "a", 0, -86400, true, 0⟩] 5
    (Except.ok ("r", 1)) "p" (by decide) (by decide) (by decide) rfl rfl (by decide)

/-- C10 counterexample: a key created with `days = 0` IS authorizable: an
authorization at exactly `now = created_at` succeeds (and is metered), so
the claim that the very first authorization attempt always takes the
expired branch is false. -/
theorem Claim10_counterexample :
    create_key (fun _ => "K") (fun _ => 0) [] "a" 0 1
      = some (⟨"K", "a", 0, 0, true, 0⟩, [⟨"K", "a", 0, 0, true, 0⟩]) ∧
    (ai_api [⟨"K", "a", 0, 0, true, 0⟩] 0 (Except.ok ("r", 1))
        (some "K") (some "p")).resp = AiResponse.success "Alice AI" "r" 1 :=
  ⟨by decide, by decide⟩
